import Mathlib

/-!
Verification development for the media_organizer repository.

The definitions below are a shallow embedding, function by function, of
the Python sources under `src/`:

* `src/linkers/file_linker.py`   — `FileLinker` (sanitisation, target
  paths, link creation with fallback chain);
* `src/utils/error_handlers.py`  — `CircuitBreaker`;
* `src/core/media_organizer.py`  — `_check_file_stability`,
  `_stability_worker_process`, the three work queues;
* `src/core/database.py`         — `TMDBCacheDB.get_cache`,
  `ProcessedFilesDB.add_processed_file`;
* `src/processors/ai_processor.py` — `AIProcessor._parse_ai_response`.

Python strings are modelled as `List Char`, machine integers as `ℤ` or
`ℕ` (no overflow is relevant here), SQL `NULL`-able columns as `Option`,
and fallible operations as `Option`/`Bool` results.  Filesystem and
network effects are modelled by explicit oracles (`LinkWorld`,
`PollResult`) describing the outcome the operating system would give to
each attempted call; the embedded code is the exact decision logic the
Python functions run on top of those outcomes.
-/

namespace MediaOrganizer

/-! ## FileLinker: filename sanitisation and target file names
    (src/linkers/file_linker.py, `_sanitize_filename` / `_get_target_path`) -/

/-- The invalid characters removed by `FileLinker._sanitize_filename`:
`invalid_chars = ["<", ">", ":", '"', "/", "\\", "|", "?", "*"]`. -/
def invalidChars : List Char := ['<', '>', ':', '"', '/', '\\', '|', '?', '*']

/-- Python `name.replace(char, "")`: remove every occurrence of `c`. -/
def removeChar (c : Char) (s : List Char) : List Char :=
  s.filter (fun a => a ≠ c)

/-- ASCII whitespace stripped by Python `str.strip()`. -/
def isPySpace (c : Char) : Bool :=
  c = ' ' || c = '\t' || c = '\n' || c = '\r' || c = '\x0b' || c = '\x0c'

/-- Python `str.strip()`: drop whitespace from both ends. -/
def pyStrip (s : List Char) : List Char :=
  ((s.dropWhile isPySpace).reverse.dropWhile isPySpace).reverse

/-- `FileLinker._sanitize_filename`: remove each invalid character in turn,
then strip surrounding whitespace. -/
def sanitizeFilename (s : List Char) : List Char :=
  pyStrip (invalidChars.foldl (fun acc c => removeChar c acc) s)

/-- Decimal digit character, as produced by Python string formatting. -/
def digitChar (d : ℕ) : Char := Char.ofNat (48 + d)

/-- Decimal rendering of a natural number (Python `str`/f-string). -/
def natChars (n : ℕ) : List Char :=
  if _h : n < 10 then [digitChar n]
  else natChars (n / 10) ++ [digitChar (n % 10)]
decreasing_by exact Nat.div_lt_self (by omega) (by omega)

/-- Decimal rendering of an integer (Python f-string `{i}`). -/
def intChars (i : ℤ) : List Char :=
  if i < 0 then '-' :: natChars i.natAbs else natChars i.toNat

/-- Python rendering of `release_year`, which may be `None`
(`_extract_year` returns `None` when no date is available). -/
def optIntChars : Option ℤ → List Char
  | some y => intChars y
  | none => ['N', 'o', 'n', 'e']

/-- Python f-string `{i:02d}`: zero-pad to width 2. -/
def intChars02 (i : ℤ) : List Char :=
  let s := intChars i
  if s.length < 2 then List.replicate (2 - s.length) '0' ++ s else s

/-- Everything before the file suffix in the movie file name computed by
`_get_target_path`: `f"\x7btitle\x7d (\x7byear\x7d)"` with the title sanitised. -/
def movieFileStem (title : List Char) (year : Option ℤ) : List Char :=
  sanitizeFilename title ++ [' ', '('] ++ optIntChars year ++ [')']

/-- The movie file name computed by `_get_target_path`:
`f"\x7btitle\x7d (\x7byear\x7d)\x7bfile_suffix\x7d"`. -/
def movieFileName (title : List Char) (year : Option ℤ) (suffix : List Char) :
    List Char :=
  movieFileStem title year ++ suffix

/-- Everything before the file suffix in the episode file name computed by
`_get_target_path`: `f"\x7btitle\x7d S\x7bseason:02d\x7dE\x7bepisode:02d\x7d"`. -/
def tvFileStem (title : List Char) (season episode : ℤ) : List Char :=
  sanitizeFilename title ++ [' ', 'S'] ++ intChars02 season ++
    ['E'] ++ intChars02 episode

/-- The episode file name computed by `_get_target_path`:
`f"\x7btitle\x7d S\x7bseason:02d\x7dE\x7bepisode:02d\x7d\x7bfile_suffix\x7d"`. -/
def tvFileName (title : List Char) (season episode : ℤ) (suffix : List Char) :
    List Char :=
  tvFileStem title season episode ++ suffix

/-! ## FileLinker: link creation with fallback chain
    (src/linkers/file_linker.py, `create_link` / `_create_hardlink` /
    `_create_symlink` / `_copy_file`) -/

/-- Outcome the operating system gives to an `os.link` attempt:
success, `OSError` with `errno == 18` (`EXDEV`, cross-device), or any
other `OSError`. -/
inductive HardlinkOutcome
  | ok
  | crossDevice
  | otherError
deriving DecidableEq, Repr

/-- Oracle fixing the outcome of each filesystem operation the linker may
attempt for one (source, target) pair. -/
structure LinkWorld where
  hardlinkOutcome : HardlinkOutcome
  symlinkOk : Bool
  copyOk : Bool
deriving DecidableEq, Repr

/-- The filesystem operations the linker can attempt. -/
inductive LinkAttempt
  | hardlink
  | symlink
  | copy
deriving DecidableEq, Repr

/-- `FileLinker._copy_file`: one `shutil.copy2` attempt (byte copy
preserving timestamps); returns whether it succeeded. -/
def copyFile (w : LinkWorld) : Bool × List LinkAttempt :=
  (w.copyOk, [LinkAttempt.copy])

/-- `FileLinker._create_symlink`: attempt the symlink to the resolved
absolute source; on `OSError` fall back to `_copy_file`. -/
def createSymlink (w : LinkWorld) : Bool × List LinkAttempt :=
  if w.symlinkOk then (true, [LinkAttempt.symlink])
  else
    let r := copyFile w
    (r.1, LinkAttempt.symlink :: r.2)

/-- `FileLinker._create_hardlink`: attempt `os.link`;
on `OSError` with `errno == 18` fall back to `_create_symlink`;
on any other `OSError` return failure. -/
def createHardlink (w : LinkWorld) : Bool × List LinkAttempt :=
  match w.hardlinkOutcome with
  | HardlinkOutcome.ok => (true, [LinkAttempt.hardlink])
  | HardlinkOutcome.crossDevice =>
      let r := createSymlink w
      (r.1, LinkAttempt.hardlink :: r.2)
  | HardlinkOutcome.otherError => (false, [LinkAttempt.hardlink])

/-- Link methods accepted by `create_link`. -/
inductive LinkMethod
  | hardlink
  | symlink
  | copy
  | unsupported
deriving DecidableEq, Repr

/-- The filesystem state visible to `create_link`: the set of existing
paths, as a list of path strings. -/
abbrev FS := List String

/-- `FileLinker.create_link source target method`, over filesystem `fs`
and OS oracle `w`.  Returns the boolean result and the filesystem
afterwards (a successful attempt materialises `target`).  Mirrors the
source: a missing source fails; an existing target returns success
immediately with nothing touched; otherwise the method dispatches into
the fallback chain. -/
def createLink (fs : FS) (source target : String) (method : LinkMethod)
    (w : LinkWorld) : Bool × FS :=
  if source ∉ fs then (false, fs)
  else if target ∈ fs then (true, fs)
  else
    let attempt : Bool :=
      match method with
      | LinkMethod.hardlink => (createHardlink w).1
      | LinkMethod.symlink => (createSymlink w).1
      | LinkMethod.copy => (copyFile w).1
      | LinkMethod.unsupported => false
    (attempt, if attempt then target :: fs else fs)

/-! ## CircuitBreaker (src/utils/error_handlers.py) -/

/-- `CircuitState` — the three breaker states. -/
inductive CircuitState
  | CLOSED
  | OPEN
  | HALF_OPEN
deriving DecidableEq, Repr

/-- The `CircuitBreaker` instance fields (the `name` string and the
`expected_exceptions` tuple are irrelevant to the state machine and are
omitted; every modelled failure is an expected exception).  Times are
naturals: `time.time()` readings. -/
structure CircuitBreaker where
  failureThreshold : ℕ
  resetTimeout : ℕ
  failureCount : ℕ
  lastFailureTime : ℕ
  state : CircuitState
  halfOpenTestInProgress : Bool
deriving DecidableEq, Repr

/-- `CircuitBreaker.__init__`: `failure_count = 0`, `last_failure_time = 0`,
`state = CLOSED`, `_half_open_test_in_progress = False`. -/
def CircuitBreaker.create (failureThreshold resetTimeout : ℕ) : CircuitBreaker :=
  { failureThreshold := failureThreshold
    resetTimeout := resetTimeout
    failureCount := 0
    lastFailureTime := 0
    state := CircuitState.CLOSED
    halfOpenTestInProgress := false }

/-- The guard block of `CircuitBreaker.call` run under the lock before the
wrapped function is invoked.  `none` means the call is rejected (an
exception is raised without invoking the function); `some cb` is the
breaker state under which the function is then invoked.
`resetTimeout < now - lastFailureTime` is Python's
`time.time() - self.last_failure_time > self.reset_timeout`. -/
def CircuitBreaker.preCall (cb : CircuitBreaker) (now : ℕ) :
    Option CircuitBreaker :=
  match cb.state with
  | CircuitState.OPEN =>
      if cb.resetTimeout < now - cb.lastFailureTime then
        some { cb with state := CircuitState.HALF_OPEN,
                       halfOpenTestInProgress := true }
      else none
  | CircuitState.HALF_OPEN =>
      if cb.halfOpenTestInProgress then none else some cb
  | CircuitState.CLOSED => some cb

/-- `CircuitBreaker._on_success`. -/
def CircuitBreaker.onSuccess (cb : CircuitBreaker) : CircuitBreaker :=
  let cb' :=
    if cb.state = CircuitState.HALF_OPEN then
      { cb with state := CircuitState.CLOSED, halfOpenTestInProgress := false }
    else cb
  { cb' with failureCount := 0 }

/-- `CircuitBreaker._on_failure`: increment the count, stamp the failure
time, then transition HALF_OPEN → OPEN, or CLOSED → OPEN once the count
reaches the threshold. -/
def CircuitBreaker.onFailure (cb : CircuitBreaker) (now : ℕ) : CircuitBreaker :=
  let cb' := { cb with failureCount := cb.failureCount + 1,
                       lastFailureTime := now }
  if cb'.state = CircuitState.HALF_OPEN then
    { cb' with state := CircuitState.OPEN, halfOpenTestInProgress := false }
  else if cb'.state = CircuitState.CLOSED ∧
      cb'.failureThreshold ≤ cb'.failureCount then
    { cb' with state := CircuitState.OPEN }
  else cb'

/-- What one `CircuitBreaker.call` did. -/
inductive CallResult
  | rejected
  | succeeded
  | failed
deriving DecidableEq, Repr

/-- `CircuitBreaker.call` at time `now`, where `succeeds` is whether the
wrapped function would succeed if invoked.  `rejected` means the guard
raised without invoking the function. -/
def CircuitBreaker.call (cb : CircuitBreaker) (now : ℕ) (succeeds : Bool) :
    CallResult × CircuitBreaker :=
  match cb.preCall now with
  | none => (CallResult.rejected, cb)
  | some cb' =>
      if succeeds then (CallResult.succeeded, cb'.onSuccess)
      else (CallResult.failed, cb'.onFailure now)

/-! ## Stability stage (src/core/media_organizer.py,
    `_check_file_stability` / `_stability_worker_process`) -/

/-- What one polling iteration observes about the file: the file has
vanished (`file_path.exists()` is false), `stat()` raised
`OSError`/`PermissionError`, or a size was read. -/
inductive PollResult
  | vanished
  | statError
  | size (s : ℤ)
deriving DecidableEq, Repr

/-- The backoff computed by `_check_file_stability`:
`wait_time = min(5, 2 ** (stable_count // 2))`. -/
def stabilityWait (stableCount : ℕ) : ℕ := min 5 (2 ^ (stableCount / 2))

/-- One run of `_check_file_stability`, recorded as its boolean result,
the size at the decision point (the `current_size` in hand when the file
had been stable for 3 consecutive reads and the 1-byte read succeeded;
`none` when no decision point was reached), and the list of sleeps the
loop performed, in seconds. -/
structure StabilityRun where
  ok : Bool
  finalSize : Option ℤ
  delays : List ℕ
deriving DecidableEq, Repr

/-- The polling loop of `_check_file_stability`.  `polls i` is what the
i-th iteration observes, `canAccess i` the result of the 1-byte-read
check if attempted on iteration i, `ignoreSize` is
`config.ignore_file_size` in bytes, and `fuel` the number of iterations
the `max_file_wait_time` budget allows.  State: iteration index,
`last_size` (initially `-1`), `stable_count` (initially 0).
`max_stable_checks = 3` is hardcoded in the source. -/
def stabilityLoop (polls : ℕ → PollResult) (canAccess : ℕ → Bool)
    (ignoreSize : ℤ) : ℕ → ℕ → ℤ → ℕ → StabilityRun
  | 0, _, _, _ => ⟨false, none, []⟩
  | fuel + 1, i, lastSize, stableCount =>
    match polls i with
    | PollResult.vanished => ⟨false, none, []⟩
    | PollResult.statError =>
        let r := stabilityLoop polls canAccess ignoreSize fuel (i + 1)
          lastSize stableCount
        ⟨r.ok, r.finalSize, 2 :: r.delays⟩
    | PollResult.size cur =>
        let cnt := if cur = lastSize then stableCount + 1 else 0
        if 3 ≤ cnt ∧ canAccess i then
          if cur < ignoreSize then ⟨false, some cur, []⟩
          else ⟨true, some cur, []⟩
        else
          let r := stabilityLoop polls canAccess ignoreSize fuel (i + 1) cur cnt
          ⟨r.ok, r.finalSize, stabilityWait cnt :: r.delays⟩

/-- `_check_file_stability`, started with `last_size = -1` and
`stable_count = 0`. -/
def checkFileStability (polls : ℕ → PollResult) (canAccess : ℕ → Bool)
    (ignoreSize : ℤ) (fuel : ℕ) : StabilityRun :=
  stabilityLoop polls canAccess ignoreSize fuel 0 (-1) 0

/-! ## Work queues (src/core/media_organizer.py, `__init__`) -/

/-- Python `queue.Queue` construction: `Queue()` leaves `maxsize = 0`,
which the `queue` module documents as an infinite queue. -/
def queueDefaultMaxsize : ℕ := 0

/-- `self.raw_file_queue = Queue()` — created with no capacity bound. -/
def rawFileQueueMaxsize : ℕ := queueDefaultMaxsize

/-- `self.stable_file_queue = Queue()` — created with no capacity bound. -/
def stableFileQueueMaxsize : ℕ := queueDefaultMaxsize

/-- `self.md5_queue = Queue()` — created with no capacity bound. -/
def md5QueueMaxsize : ℕ := queueDefaultMaxsize

/-- Python `Queue.put` for a queue of capacity `maxsize`: when
`maxsize > 0` and the queue is full the producer blocks (modelled as the
queue left unchanged); otherwise the item is appended. -/
def queuePut (maxsize : ℕ) (q : List α) (x : α) : List α :=
  if 0 < maxsize ∧ maxsize ≤ q.length then q else q ++ [x]

/-- `n` successive `put` calls on an initially empty queue of capacity
`maxsize`. -/
def queuePutN (maxsize n : ℕ) : List ℕ :=
  (List.range n).foldl (fun q i => queuePut maxsize q i) []

/-- The fields of the `file_info` descriptor relevant here. -/
structure FileInfo where
  filePath : String
  fileSize : ℤ
deriving DecidableEq, Repr

/-- The organizer state touched by one stability-worker iteration:
the Pending Registry (`pending_files : path → add time`), the stable
queue, and the two counters. -/
structure StabilityStageState where
  pendingFiles : List (String × ℤ)
  stableFileQueue : List FileInfo
  statsStable : ℕ
  statsUnstable : ℕ
deriving DecidableEq, Repr

/-- `_remove_from_pending`: delete the path's entry if present. -/
def removeFromPending (pending : List (String × ℤ)) (path : String) :
    List (String × ℤ) :=
  pending.filter (fun e => e.1 ≠ path)

/-- The body of `_stability_worker_process` for one dequeued descriptor,
given the result `stable` of `_check_file_stability`: on success enqueue
onto the stable queue and count `stable_files`; on failure count
`unstable_files` and remove the path from the Pending Registry. -/
def stabilityWorkerStep (st : StabilityStageState) (fi : FileInfo)
    (stable : Bool) : StabilityStageState :=
  if stable then
    { st with
      stableFileQueue := queuePut stableFileQueueMaxsize st.stableFileQueue fi
      statsStable := st.statsStable + 1 }
  else
    { st with
      statsUnstable := st.statsUnstable + 1
      pendingFiles := removeFromPending st.pendingFiles fi.filePath }

/-! ## TMDB cache (src/core/database.py, `TMDBCacheDB.get_cache`) -/

/-- One row of the `tmdb_cache` table.  JSON text columns (`genres`,
`genre_ids`) are modelled as the lists they encode; `data_json` is kept
as the raw string. -/
structure CacheRow where
  queryType : String
  queryText : String
  queryYear : Option ℤ
  tmdbId : ℤ
  mediaType : String
  title : String
  releaseYear : Option ℤ
  genres : List String
  genreIds : List ℤ
  dataJson : String
  createdTime : ℤ
  lastAccessedTime : ℤ
deriving DecidableEq, Repr

/-- SQLite `query_year = ?`: three-valued equality collapsed to a WHERE
truth value — a comparison involving `NULL` never matches. -/
def sqlYearEq (stored bound : Option ℤ) : Bool :=
  match stored, bound with
  | some a, some b => a = b
  | _, _ => false

/-- The WHERE clause of the SELECT in `get_cache`: with a year the query
adds `AND query_year = ?`; without one it matches on type and text only. -/
def cacheSelectMatch (r : CacheRow) (qt qx : String) (year : Option ℤ) : Bool :=
  r.queryType == qt && r.queryText == qx &&
    match year with
    | some y => sqlYearEq r.queryYear (some y)
    | none => true

/-- The WHERE clause of the UPDATE in `get_cache`, which always binds all
three columns: `query_type = ? AND query_text = ? AND query_year = ?`
(with `year` possibly `NULL`). -/
def cacheUpdateMatch (r : CacheRow) (qt qx : String) (year : Option ℤ) : Bool :=
  r.queryType == qt && r.queryText == qx && sqlYearEq r.queryYear year

/-- The dictionary `get_cache` returns on a hit. -/
structure CacheResult where
  dataJson : String
  tmdbId : ℤ
  mediaType : String
  title : String
  releaseYear : Option ℤ
  genres : List String
  genreIds : List ℤ
  isAnime : Bool
deriving DecidableEq, Repr

/-- `TMDBCacheDB.get_cache query_type query_text year` at clock reading
`now`, over table `db` (rows in rowid order; `fetchone` takes the first
match).  Returns the result dictionary (if any) and the table after the
UPDATE statement. -/
def getCache (db : List CacheRow) (qt qx : String) (year : Option ℤ)
    (now : ℤ) : Option CacheResult × List CacheRow :=
  match db.find? (fun r => cacheSelectMatch r qt qx year) with
  | none => (none, db)
  | some row =>
      let db' := db.map (fun r =>
        if cacheUpdateMatch r qt qx year then { r with lastAccessedTime := now }
        else r)
      (some { dataJson := row.dataJson
              tmdbId := row.tmdbId
              mediaType := row.mediaType
              title := row.title
              releaseYear := row.releaseYear
              genres := row.genres
              genreIds := row.genreIds
              isAnime := (16 : ℤ) ∈ row.genreIds }, db')

/-- `TMDBClient.search_tv` consults the cache with
`get_cache("tv", title, None)` — the year argument of every series
lookup is `None`. -/
def searchTvCacheLookup (db : List CacheRow) (title : String) (now : ℤ) :
    Option CacheResult × List CacheRow :=
  getCache db "tv" title none now

/-! ## Processed-file ledger
    (src/core/database.py, `ProcessedFilesDB.add_processed_file`) -/

/-- One row of the `processed_files` table (`file_path` is UNIQUE). -/
structure ProcessedRow where
  filePath : String
  fileMd5 : Option String
  fileSize : ℤ
  processedTime : ℤ
  tmdbId : Option ℤ
  mediaType : Option String
  targetPath : Option String
deriving DecidableEq, Repr

/-- Python truthiness of the optional `md5` argument (`if use_md5 and
md5:`): an absent or empty digest is falsy. -/
def md5Truthy : Option String → Bool
  | some s => s ≠ ""
  | none => false

/-- One call of `ProcessedFilesDB.add_processed_file`. -/
structure AddOp where
  filePath : String
  fileSize : ℤ
  md5 : Option String
  tmdbId : Option ℤ
  mediaType : Option String
  targetPath : Option String
  now : ℤ
  useMd5 : Bool
deriving DecidableEq, Repr

/-- The row the INSERT writes: the digest column gets the digest when
`use_md5` is set and the digest is truthy, and `NULL` otherwise. -/
def AddOp.row (op : AddOp) : ProcessedRow :=
  { filePath := op.filePath
    fileMd5 := if op.useMd5 ∧ md5Truthy op.md5 then op.md5 else none
    fileSize := op.fileSize
    processedTime := op.now
    tmdbId := op.tmdbId
    mediaType := op.mediaType
    targetPath := op.targetPath }

/-- `INSERT OR REPLACE INTO processed_files ...`: SQLite deletes every
row conflicting on the UNIQUE `file_path` column and inserts the new row
(with a fresh rowid, i.e. at the end). -/
def addProcessedFile (db : List ProcessedRow) (op : AddOp) :
    List ProcessedRow :=
  db.filter (fun r => r.filePath ≠ op.filePath) ++ [op.row]

/-- A sequence of `add_processed_file` calls applied in order. -/
def applyAdds (db : List ProcessedRow) : List AddOp → List ProcessedRow
  | [] => db
  | op :: rest => applyAdds (addProcessedFile db op) rest

/-- The rows of the table holding a given path. -/
def rowsFor (db : List ProcessedRow) (path : String) : List ProcessedRow :=
  db.filter (fun r => r.filePath = path)

/-- The most recent add for a given path in a sequence of operations. -/
def lastAddFor (ops : List AddOp) (path : String) : Option AddOp :=
  ops.reverse.find? (fun op => op.filePath = path)

/-! ## Identification response validation
    (src/processors/ai_processor.py, `_parse_ai_response`) -/

/-- JSON values as `json.loads` produces them.  In Python `bool` is a
subclass of `int`, so `isinstance(x, int)` accepts booleans; the model
keeps them distinct and reproduces that in `Json.isInt`. -/
inductive Json
  | null
  | bool (b : Bool)
  | int (n : ℤ)
  | str (s : String)
  | arr (xs : List Json)
  | obj (fields : List (String × Json))
deriving Repr

/-- `dict.get(key)`: `None` when absent (JSON object keys are unique). -/
def Json.get : Json → String → Option Json
  | Json.obj fields, key =>
      match fields.find? (fun f => f.1 == key) with
      | some f => some f.2
      | none => none
  | _, _ => none

/-- `key in data` for a JSON object. -/
def Json.hasKey (j : Json) (key : String) : Bool :=
  (j.get key).isSome

/-- Python truthiness of a decoded JSON value, as tested by
`if not data.get("title")`. -/
def Json.truthy : Option Json → Bool
  | none => false
  | some Json.null => false
  | some (Json.bool b) => b
  | some (Json.int n) => n != 0
  | some (Json.str s) => s != ""
  | some (Json.arr xs) => !xs.isEmpty
  | some (Json.obj fields) => !fields.isEmpty

/-- `isinstance(x, int)` on a decoded JSON value: true for integers and
booleans (Python `bool` is an `int`). -/
def Json.isInt : Json → Bool
  | Json.int _ => true
  | Json.bool _ => true
  | _ => false

/-- Whether the value is exactly the given string. -/
def Json.isStr : Json → String → Bool
  | Json.str t, s => t == s
  | _, _ => false

/-- Whether `data.get(key)` is that string
(`data.get("type") in ["movie", "tv"]` compares by value). -/
def Json.getIsStr (data : Json) (key s : String) : Bool :=
  match data.get key with
  | some v => v.isStr s
  | none => false

/-- The integer under a key, when it is an integer. -/
def Json.getInt (data : Json) (key : String) : Option ℤ :=
  match data.get key with
  | some (Json.int n) => some n
  | _ => none

/-- `x is None` for an optional decoded value. -/
def optIsNone : Option Json → Bool
  | none => true
  | some Json.null => true
  | some _ => false

/-- `isinstance(data.get(key), int)` with a missing key counting as not
an int (`data.get` returns `None`). -/
def jsonOptIsInt : Option Json → Bool
  | some v => v.isInt
  | none => false

/-- The validation section of `AIProcessor._parse_ai_response`, applied
to the decoded JSON object `data` (the surrounding brace-extraction and
`json.loads` are the parsing contract, out of scope here).  Returns the
object unchanged when accepted, `None` when rejected. -/
def parseAiResponse (data : Json) : Option Json :=
  if !(data.getIsStr "type" "movie" || data.getIsStr "type" "tv") then none
  else if data.getIsStr "type" "movie" then
    if !Json.truthy (data.get "title") then none
    else if data.hasKey "year" && !jsonOptIsInt (data.get "year") then none
    else some data
  else
    if !Json.truthy (data.get "title") then none
    else if optIsNone (data.get "season") ||
        !jsonOptIsInt (data.get "season") then none
    else if optIsNone (data.get "episode") ||
        !jsonOptIsInt (data.get "episode") then none
    else some data

/-! ## Helper lemmas -/

theorem mem_foldl_removeChar_start : ∀ (cs s : List Char) {a : Char},
    a ∈ cs.foldl (fun acc c => removeChar c acc) s → a ∈ s := by
  intro cs
  induction cs with
  | nil => intro s a h; simpa using h
  | cons c cs ih =>
    intro s a h
    have := ih _ h
    simp only [removeChar, List.mem_filter] at this
    exact this.1

theorem mem_foldl_removeChar {cs : List Char} {s : List Char} {a : Char}
    (h : a ∈ cs.foldl (fun acc c => removeChar c acc) s) : a ∉ cs := by
  induction cs generalizing s with
  | nil => simp
  | cons c cs ih =>
    intro hmem
    rcases List.mem_cons.mp hmem with rfl | hcs
    · have := mem_foldl_removeChar_start cs (removeChar a s) h
      simp [removeChar, List.mem_filter] at this
    · exact ih h hcs

theorem mem_pyStrip {s : List Char} {a : Char} (h : a ∈ pyStrip s) : a ∈ s := by
  unfold pyStrip at h
  rw [List.mem_reverse] at h
  have h1 := (List.dropWhile_sublist (l := (s.dropWhile isPySpace).reverse)
    (p := isPySpace)).mem h
  rw [List.mem_reverse] at h1
  exact (List.dropWhile_sublist (l := s) (p := isPySpace)).mem h1

theorem mem_sanitizeFilename_not_invalid {s : List Char} {a : Char}
    (h : a ∈ sanitizeFilename s) : a ∉ invalidChars :=
  mem_foldl_removeChar (mem_pyStrip h)

theorem mem_natChars_not_invalid : ∀ (n : ℕ) {a : Char},
    a ∈ natChars n → a ∉ invalidChars := by
  intro n
  induction n using Nat.strong_induction_on with
  | _ n ih =>
    intro a ha
    rw [natChars] at ha
    split at ha
    · next h =>
      simp only [List.mem_singleton] at ha
      subst ha
      interval_cases n <;> decide
    · next h =>
      rw [List.mem_append] at ha
      rcases ha with ha | ha
      · exact ih (n / 10) (Nat.div_lt_self (by omega) (by omega)) ha
      · simp only [List.mem_singleton] at ha
        subst ha
        have hm : n % 10 < 10 := Nat.mod_lt _ (by omega)
        interval_cases h : (n % 10) <;> simp_all <;> decide

theorem mem_intChars_not_invalid {i : ℤ} {a : Char}
    (h : a ∈ intChars i) : a ∉ invalidChars := by
  unfold intChars at h
  split at h
  · rcases List.mem_cons.mp h with rfl | h
    · decide
    · exact mem_natChars_not_invalid _ h
  · exact mem_natChars_not_invalid _ h

theorem mem_optIntChars_not_invalid {y : Option ℤ} {a : Char}
    (h : a ∈ optIntChars y) : a ∉ invalidChars := by
  cases y with
  | some v => exact mem_intChars_not_invalid h
  | none =>
    simp only [optIntChars, List.mem_cons, List.not_mem_nil, or_false] at h
    rcases h with rfl | rfl | rfl | rfl <;> decide

theorem mem_intChars02_not_invalid {i : ℤ} {a : Char}
    (h : a ∈ intChars02 i) : a ∉ invalidChars := by
  unfold intChars02 at h
  simp only at h
  split at h
  · rw [List.mem_append] at h
    rcases h with h | h
    · have := List.eq_of_mem_replicate h
      subst this
      decide
    · exact mem_intChars_not_invalid h
  · exact mem_intChars_not_invalid h

/-! ## C6 — sanitised target file names -/

/-- C6: for every title string T and file suffix E, the target filename
computed by the publisher (`_get_target_path`) consists of a clean part
followed by E: every character before E is outside the forbidden set
`<>:"/\|?*` (each forbidden character of T having been removed and the
result trimmed), and the filename ends with E unchanged — for movie
names and episode names alike. -/
theorem sanitized_target_filename_c6 (title suffix : List Char)
    (year : Option ℤ) (season episode : ℤ) :
    (∀ a ∈ movieFileStem title year, a ∉ invalidChars) ∧
    movieFileName title year suffix = movieFileStem title year ++ suffix ∧
    suffix <:+ movieFileName title year suffix ∧
    (∀ a ∈ tvFileStem title season episode, a ∉ invalidChars) ∧
    tvFileName title season episode suffix =
      tvFileStem title season episode ++ suffix ∧
    suffix <:+ tvFileName title season episode suffix := by
  refine ⟨?_, rfl, ⟨movieFileStem title year, rfl⟩, ?_, rfl,
    ⟨tvFileStem title season episode, rfl⟩⟩
  · intro a ha
    unfold movieFileStem at ha
    simp only [List.append_assoc, List.mem_append, List.mem_cons,
      List.not_mem_nil, or_false] at ha
    rcases ha with ha | (rfl | rfl) | ha | rfl
    · exact mem_sanitizeFilename_not_invalid ha
    · decide
    · decide
    · exact mem_optIntChars_not_invalid ha
    · decide
  · intro a ha
    unfold tvFileStem at ha
    simp only [List.append_assoc, List.mem_append, List.mem_cons,
      List.not_mem_nil, or_false] at ha
    rcases ha with ha | (rfl | rfl) | ha | rfl | ha
    · exact mem_sanitizeFilename_not_invalid ha
    · decide
    · decide
    · exact mem_intChars02_not_invalid ha
    · decide
    · exact mem_intChars02_not_invalid ha

/-- Witness for C6: a title containing `<` and suffix `.mkv` yields a
movie file name ending in the suffix. -/
theorem sanitized_target_filename_c6_witness :
    ['.', 'm', 'k', 'v'] <:+
      movieFileName ['A', '<', 'B'] (some 1999) ['.', 'm', 'k', 'v'] :=
  (sanitized_target_filename_c6 ['A', '<', 'B'] ['.', 'm', 'k', 'v']
    (some 1999) 1 2).2.2.1

/-! ## C5 — hardlink fallback chain -/

/-- C5: link materialization with method `hardlink` follows the fallback
chain.  The hardlink is attempted first; a symlink is attempted iff the
hardlink fails with the cross-device error (`errno == 18`); a byte-copy
is attempted iff the symlink attempt was made and failed with an OS
error; the chain reports success exactly when one of its steps succeeds.
Moreover `create_link` with method `hardlink` (source present, target
not yet present) reports exactly the chain's result. -/
theorem hardlink_fallback_chain_c5 (w : LinkWorld) :
    (createHardlink w).2.head? = some LinkAttempt.hardlink ∧
    (LinkAttempt.symlink ∈ (createHardlink w).2 ↔
      w.hardlinkOutcome = HardlinkOutcome.crossDevice) ∧
    (LinkAttempt.copy ∈ (createHardlink w).2 ↔
      (w.hardlinkOutcome = HardlinkOutcome.crossDevice ∧ w.symlinkOk = false)) ∧
    ((createHardlink w).1 = true ↔
      (w.hardlinkOutcome = HardlinkOutcome.ok ∨
       (w.hardlinkOutcome = HardlinkOutcome.crossDevice ∧ w.symlinkOk = true) ∨
       (w.hardlinkOutcome = HardlinkOutcome.crossDevice ∧ w.symlinkOk = false ∧
        w.copyOk = true))) ∧
    (∀ (fs : FS) (source target : String), source ∈ fs → target ∉ fs →
      (createLink fs source target LinkMethod.hardlink w).1 =
        (createHardlink w).1) := by
  obtain ⟨ho, so, co⟩ := w
  refine ⟨?_, ?_, ?_, ?_, ?_⟩
  · cases ho <;> cases so <;> cases co <;> decide
  · cases ho <;> cases so <;> cases co <;> decide
  · cases ho <;> cases so <;> cases co <;> decide
  · cases ho <;> cases so <;> cases co <;> decide
  · intro fs source target hs ht
    simp [createLink, hs, ht]

/-- Witness for C5: on a filesystem where only the source exists, with a
cross-device hardlink failure and a working symlink, the dispatch through
`create_link` agrees with the chain and the chain succeeds. -/
theorem hardlink_fallback_chain_c5_witness :
    (createLink ["/in/a.mkv"] "/in/a.mkv" "/lib/a.mkv" LinkMethod.hardlink
      ⟨HardlinkOutcome.crossDevice, true, false⟩).1 =
      (createHardlink ⟨HardlinkOutcome.crossDevice, true, false⟩).1 :=
  (hardlink_fallback_chain_c5 ⟨HardlinkOutcome.crossDevice, true, false⟩).2.2.2.2
    ["/in/a.mkv"] "/in/a.mkv" "/lib/a.mkv" (by decide) (by decide)

/-! ## Ledger helper lemmas -/

theorem rowsFor_addProcessedFile_self (db : List ProcessedRow) (op : AddOp) :
    rowsFor (addProcessedFile db op) op.filePath = [op.row] := by
  unfold rowsFor addProcessedFile
  rw [List.filter_append]
  have h1 : (db.filter (fun r => r.filePath ≠ op.filePath)).filter
      (fun r => r.filePath = op.filePath) = [] := by
    rw [List.filter_filter]
    apply List.filter_eq_nil_iff.mpr
    intro r _
    by_cases h : r.filePath = op.filePath <;> simp [h]
  have h2 : [op.row].filter (fun r => r.filePath = op.filePath) = [op.row] := by
    simp [AddOp.row]
  rw [h1, h2, List.nil_append]

theorem rowsFor_addProcessedFile_other (db : List ProcessedRow) (op : AddOp)
    (path : String) (h : path ≠ op.filePath) :
    rowsFor (addProcessedFile db op) path = rowsFor db path := by
  unfold rowsFor addProcessedFile
  rw [List.filter_append]
  have h2 : [op.row].filter (fun r => r.filePath = path) = [] := by
    simp [AddOp.row]
    exact fun hc => h hc.symm
  rw [h2, List.append_nil, List.filter_filter]
  apply List.filter_congr
  intro r _
  by_cases hr : r.filePath = path
  · simp [hr, h]
  · simp [hr]

theorem lastAddFor_cons (op : AddOp) (ops : List AddOp) (path : String) :
    lastAddFor (op :: ops) path =
      match lastAddFor ops path with
      | some o => some o
      | none => if op.filePath = path then some op else none := by
  unfold lastAddFor
  rw [List.reverse_cons, List.find?_append]
  cases hfind : List.find? (fun o => decide (o.filePath = path)) ops.reverse with
  | some o => simp [hfind]
  | none =>
    simp only [hfind, Option.none_or]
    by_cases h : op.filePath = path <;> simp [List.find?, h]

/-! ## C10 — the ledger replaces on path conflicts -/

/-- C10: `add_processed_file` uses `INSERT OR REPLACE` against the UNIQUE
`file_path` column, so adding a record for a path that already has a row
replaces that row wholesale (digest, size, timestamp, tmdb id, media
type and target path all come from the new record), and after any
sequence of adds each path maps to exactly the row of the most recently
added record for it. -/
theorem ledger_replace_c10 :
    (∀ (db : List ProcessedRow) (op : AddOp),
      rowsFor (addProcessedFile db op) op.filePath = [op.row]) ∧
    (∀ (db : List ProcessedRow) (ops : List AddOp) (path : String),
      rowsFor (applyAdds db ops) path =
        match lastAddFor ops path with
        | some op => [op.row]
        | none => rowsFor db path) := by
  refine ⟨rowsFor_addProcessedFile_self, ?_⟩
  intro db ops
  induction ops generalizing db with
  | nil => intro path; simp [applyAdds, lastAddFor]
  | cons op rest ih =>
    intro path
    show rowsFor (applyAdds (addProcessedFile db op) rest) path = _
    rw [ih, lastAddFor_cons]
    cases hlast : lastAddFor rest path with
    | some o => simp
    | none =>
      simp only
      by_cases hp : op.filePath = path
      · subst hp
        simp [rowsFor_addProcessedFile_self]
      · have := rowsFor_addProcessedFile_other db op path (fun hc => hp hc.symm)
        simp [hp, this]

/-! ## C4 — idempotent publishing -/

/-- C4: publishing is idempotent.  If the computed target already exists,
`create_link` returns success at once without touching the filesystem;
consequently a second publication of the same (source, target) pair
leaves the filesystem unchanged, and repeated `add_processed_file` calls
for the same path leave exactly one ledger row (the latest). -/
theorem idempotent_publish_c4 :
    (∀ (fs : FS) (source target : String) (m : LinkMethod) (w : LinkWorld),
      source ∈ fs → target ∈ fs →
      createLink fs source target m w = (true, fs)) ∧
    (∀ (fs fs₁ : FS) (source target : String) (m : LinkMethod) (w : LinkWorld),
      source ∈ fs → createLink fs source target m w = (true, fs₁) →
      target ∈ fs₁ ∧ createLink fs₁ source target m w = (true, fs₁)) ∧
    (∀ (db : List ProcessedRow) (op₁ op₂ : AddOp),
      op₁.filePath = op₂.filePath →
      rowsFor (addProcessedFile (addProcessedFile db op₁) op₂) op₂.filePath =
        [op₂.row]) := by
  refine ⟨?_, ?_, ?_⟩
  · intro fs source target m w hs ht
    simp [createLink, hs, ht]
  · intro fs fs₁ source target m w hs hcall
    by_cases ht : target ∈ fs
    · simp only [createLink, hs, ht, not_true_eq_false, if_false, if_true,
        not_false_eq_true, Prod.mk.injEq, true_and] at hcall
      subst hcall
      exact ⟨ht, by simp [createLink, hs, ht]⟩
    · simp only [createLink, hs, ht, not_true_eq_false, if_false, if_true,
        not_false_eq_true, Prod.mk.injEq] at hcall
      obtain ⟨hres, hfs⟩ := hcall
      rw [hres, if_pos rfl] at hfs
      subst hfs
      refine ⟨List.mem_cons_self _ _, ?_⟩
      have hs' : source ∈ target :: fs := List.mem_cons_of_mem _ hs
      simp [createLink, hs']
  · intro db op₁ op₂ _
    exact rowsFor_addProcessedFile_self _ _

/-- Witness for C4: with source and target both present, `create_link`
returns success and the unchanged filesystem; and a second ledger add for
the same path leaves the single newest row. -/
theorem idempotent_publish_c4_witness :
    createLink ["/in/a.mkv", "/lib/a.mkv"] "/in/a.mkv" "/lib/a.mkv"
      LinkMethod.hardlink ⟨HardlinkOutcome.ok, true, true⟩ =
      (true, ["/in/a.mkv", "/lib/a.mkv"]) :=
  (idempotent_publish_c4).1 ["/in/a.mkv", "/lib/a.mkv"] "/in/a.mkv" "/lib/a.mkv"
    LinkMethod.hardlink ⟨HardlinkOutcome.ok, true, true⟩ (by decide) (by decide)

/-! ## C3 — the circuit breaker state machine -/

/-- C3: the breaker starts CLOSED with a zero count; every executed
failure increments the count and the count never decreases without a
success; a failure in CLOSED that brings the count to the threshold
opens the breaker; while OPEN and within `reset_timeout` of the last
failure every call is rejected with nothing invoked and nothing changed;
the first call past the window flips the guard to HALF_OPEN with the
probe flag set and is itself allowed through, while any call that sees
HALF_OPEN with the probe in flight is rejected; a successful probe
closes the breaker and clears the count; a failed probe re-opens it and
refreshes the failure time. -/
theorem circuit_breaker_machine_c3 :
    (∀ thr reset : ℕ,
      (CircuitBreaker.create thr reset).state = CircuitState.CLOSED ∧
      (CircuitBreaker.create thr reset).failureCount = 0) ∧
    (∀ (cb : CircuitBreaker) (now : ℕ),
      (cb.call now false).1 ≠ CallResult.rejected →
      ((cb.call now false).2).failureCount = cb.failureCount + 1) ∧
    (∀ (cb : CircuitBreaker) (now : ℕ) (b : Bool),
      (cb.call now b).1 ≠ CallResult.succeeded →
      cb.failureCount ≤ ((cb.call now b).2).failureCount) ∧
    (∀ (cb : CircuitBreaker) (now : ℕ),
      cb.state = CircuitState.CLOSED →
      cb.failureThreshold ≤ cb.failureCount + 1 →
      ((cb.call now false).2).state = CircuitState.OPEN) ∧
    (∀ (cb : CircuitBreaker) (now : ℕ) (b : Bool),
      cb.state = CircuitState.OPEN →
      now - cb.lastFailureTime ≤ cb.resetTimeout →
      cb.call now b = (CallResult.rejected, cb)) ∧
    (∀ (cb : CircuitBreaker) (now : ℕ) (b : Bool),
      cb.state = CircuitState.OPEN →
      cb.resetTimeout < now - cb.lastFailureTime →
      cb.preCall now = some { cb with state := CircuitState.HALF_OPEN,
                                      halfOpenTestInProgress := true } ∧
      (cb.call now b).1 ≠ CallResult.rejected) ∧
    (∀ (cb : CircuitBreaker) (now : ℕ) (b : Bool),
      cb.state = CircuitState.HALF_OPEN →
      cb.halfOpenTestInProgress = true →
      cb.call now b = (CallResult.rejected, cb)) ∧
    (∀ (cb : CircuitBreaker) (now : ℕ),
      cb.state = CircuitState.OPEN →
      cb.resetTimeout < now - cb.lastFailureTime →
      ((cb.call now true).2).state = CircuitState.CLOSED ∧
      ((cb.call now true).2).failureCount = 0 ∧
      ((cb.call now true).2).halfOpenTestInProgress = false) ∧
    (∀ (cb : CircuitBreaker) (now : ℕ),
      cb.state = CircuitState.OPEN →
      cb.resetTimeout < now - cb.lastFailureTime →
      ((cb.call now false).2).state = CircuitState.OPEN ∧
      ((cb.call now false).2).lastFailureTime = now ∧
      ((cb.call now false).2).halfOpenTestInProgress = false) := by
  refine ⟨?_, ?_, ?_, ?_, ?_, ?_, ?_, ?_, ?_⟩
  · intro thr reset
    exact ⟨rfl, rfl⟩
  · intro cb now h
    unfold CircuitBreaker.call CircuitBreaker.preCall CircuitBreaker.onFailure
      at h ⊢
    cases hs : cb.state <;> simp only [hs] at h ⊢
    · split_ifs <;> simp_all
    · split_ifs at h ⊢ <;> simp_all
    · split_ifs at h ⊢ <;> simp_all
  · intro cb now b h
    unfold CircuitBreaker.call CircuitBreaker.preCall CircuitBreaker.onFailure
      CircuitBreaker.onSuccess at h ⊢
    cases hs : cb.state <;> cases b <;> simp only [hs] at h ⊢ <;>
      split_ifs at h ⊢ <;> simp_all
  · intro cb now hs hthr
    unfold CircuitBreaker.call CircuitBreaker.preCall CircuitBreaker.onFailure
    simp only [hs]
    split_ifs <;> simp_all
  · intro cb now b hs hwin
    unfold CircuitBreaker.call CircuitBreaker.preCall
    simp only [hs]
    rw [if_neg (by omega)]
  · intro cb now b hs hwin
    unfold CircuitBreaker.call CircuitBreaker.preCall
    simp only [hs]
    rw [if_pos hwin]
    constructor
    · rfl
    · cases b <;> simp
  · intro cb now b hs hflag
    unfold CircuitBreaker.call CircuitBreaker.preCall
    simp only [hs, hflag, if_true]
  · intro cb now hs hwin
    unfold CircuitBreaker.call CircuitBreaker.preCall CircuitBreaker.onSuccess
    simp only [hs]
    rw [if_pos hwin]
    simp
  · intro cb now hs hwin
    unfold CircuitBreaker.call CircuitBreaker.preCall CircuitBreaker.onFailure
    simp only [hs]
    rw [if_pos hwin]
    simp

/-- Witness for C3: a breaker that has been OPEN since time 0 with a 300 s
window rejects a call at time 200 unchanged, and at time 301 runs the
probe; a successful probe closes it with a cleared count. -/
theorem circuit_breaker_machine_c3_witness :
    (CircuitBreaker.mk 5 300 5 0 CircuitState.OPEN false).call 200 true =
      (CallResult.rejected, CircuitBreaker.mk 5 300 5 0 CircuitState.OPEN false) ∧
    (((CircuitBreaker.mk 5 300 5 0 CircuitState.OPEN false).call 301 true).2).state
      = CircuitState.CLOSED :=
  ⟨(circuit_breaker_machine_c3).2.2.2.2.1
      (CircuitBreaker.mk 5 300 5 0 CircuitState.OPEN false) 200 true rfl
      (by decide),
   ((circuit_breaker_machine_c3).2.2.2.2.2.2.2.1
      (CircuitBreaker.mk 5 300 5 0 CircuitState.OPEN false) 301
      rfl (by decide)).1⟩

/-! ## Stability-loop lemmas -/

theorem stabilityLoop_eq_zero (polls : ℕ → PollResult) (canAccess : ℕ → Bool)
    (ign : ℤ) (i : ℕ) (last : ℤ) (cnt : ℕ) :
    stabilityLoop polls canAccess ign 0 i last cnt = ⟨false, none, []⟩ := rfl

theorem stabilityLoop_eq_vanished {polls : ℕ → PollResult}
    (canAccess : ℕ → Bool) (ign : ℤ) (fuel : ℕ) {i : ℕ} (last : ℤ) (cnt : ℕ)
    (h : polls i = PollResult.vanished) :
    stabilityLoop polls canAccess ign (fuel + 1) i last cnt =
      ⟨false, none, []⟩ := by
  rw [stabilityLoop, h]

theorem stabilityLoop_eq_statError {polls : ℕ → PollResult}
    (canAccess : ℕ → Bool) (ign : ℤ) (fuel : ℕ) {i : ℕ} (last : ℤ) (cnt : ℕ)
    (h : polls i = PollResult.statError) :
    stabilityLoop polls canAccess ign (fuel + 1) i last cnt =
      ⟨(stabilityLoop polls canAccess ign fuel (i + 1) last cnt).ok,
       (stabilityLoop polls canAccess ign fuel (i + 1) last cnt).finalSize,
       2 :: (stabilityLoop polls canAccess ign fuel (i + 1) last cnt).delays⟩ := by
  rw [stabilityLoop, h]

theorem stabilityLoop_eq_size {polls : ℕ → PollResult}
    (canAccess : ℕ → Bool) (ign : ℤ) (fuel : ℕ) {i : ℕ} (last : ℤ) (cnt : ℕ)
    {cur : ℤ} (h : polls i = PollResult.size cur) :
    stabilityLoop polls canAccess ign (fuel + 1) i last cnt =
      if 3 ≤ (if cur = last then cnt + 1 else 0) ∧ canAccess i = true then
        if cur < ign then ⟨false, some cur, []⟩
        else ⟨true, some cur, []⟩
      else
        ⟨(stabilityLoop polls canAccess ign fuel (i + 1) cur
            (if cur = last then cnt + 1 else 0)).ok,
         (stabilityLoop polls canAccess ign fuel (i + 1) cur
            (if cur = last then cnt + 1 else 0)).finalSize,
         stabilityWait (if cur = last then cnt + 1 else 0) ::
           (stabilityLoop polls canAccess ign fuel (i + 1) cur
             (if cur = last then cnt + 1 else 0)).delays⟩ := by
  rw [stabilityLoop, h]

theorem stabilityLoop_finalSize_ok (polls : ℕ → PollResult)
    (canAccess : ℕ → Bool) (ign : ℤ) : ∀ (fuel i : ℕ) (last : ℤ) (cnt : ℕ)
    (s : ℤ),
    (stabilityLoop polls canAccess ign fuel i last cnt).finalSize = some s →
    ((stabilityLoop polls canAccess ign fuel i last cnt).ok = true ↔
      ign ≤ s) := by
  intro fuel
  induction fuel with
  | zero => intro i last cnt s h; simp [stabilityLoop_eq_zero] at h
  | succ fuel ih =>
    intro i last cnt s h
    cases hp : polls i with
    | vanished =>
      rw [stabilityLoop_eq_vanished canAccess ign fuel last cnt hp] at h
      simp at h
    | statError =>
      rw [stabilityLoop_eq_statError canAccess ign fuel last cnt hp] at h ⊢
      exact ih (i + 1) last cnt s h
    | size cur =>
      rw [stabilityLoop_eq_size canAccess ign fuel last cnt hp] at h ⊢
      split_ifs at h ⊢ <;>
        first
          | (simp only [Option.some.injEq] at h
             subst h
             simp only [Bool.false_eq_true, false_iff]
             omega)
          | (simp only [Option.some.injEq] at h
             subst h
             simp only [true_iff]
             omega)
          | exact ih (i + 1) cur _ s h

theorem stabilityLoop_ignore_indep (polls : ℕ → PollResult)
    (canAccess : ℕ → Bool) (ign₁ ign₂ : ℤ) : ∀ (fuel i : ℕ) (last : ℤ)
    (cnt : ℕ),
    (stabilityLoop polls canAccess ign₁ fuel i last cnt).finalSize =
      (stabilityLoop polls canAccess ign₂ fuel i last cnt).finalSize ∧
    (stabilityLoop polls canAccess ign₁ fuel i last cnt).delays =
      (stabilityLoop polls canAccess ign₂ fuel i last cnt).delays := by
  intro fuel
  induction fuel with
  | zero => intro i last cnt; simp [stabilityLoop_eq_zero]
  | succ fuel ih =>
    intro i last cnt
    cases hp : polls i with
    | vanished =>
      rw [stabilityLoop_eq_vanished canAccess ign₁ fuel last cnt hp,
        stabilityLoop_eq_vanished canAccess ign₂ fuel last cnt hp]
      exact ⟨rfl, rfl⟩
    | statError =>
      rw [stabilityLoop_eq_statError canAccess ign₁ fuel last cnt hp,
        stabilityLoop_eq_statError canAccess ign₂ fuel last cnt hp]
      refine ⟨(ih (i + 1) last cnt).1, ?_⟩
      simp only [List.cons.injEq, true_and]
      exact (ih (i + 1) last cnt).2
    | size cur =>
      rw [stabilityLoop_eq_size canAccess ign₁ fuel last cnt hp,
        stabilityLoop_eq_size canAccess ign₂ fuel last cnt hp]
      split_ifs <;>
        first
          | exact ⟨rfl, rfl⟩
          | (refine ⟨(ih (i + 1) cur _).1, ?_⟩
             simp only [List.cons.injEq, true_and]
             exact (ih (i + 1) cur _).2)

theorem stabilityLoop_delays_le (polls : ℕ → PollResult)
    (canAccess : ℕ → Bool) (ign : ℤ) : ∀ (fuel i : ℕ) (last : ℤ) (cnt : ℕ),
    ∀ d ∈ (stabilityLoop polls canAccess ign fuel i last cnt).delays, d ≤ 5 := by
  intro fuel
  induction fuel with
  | zero => intro i last cnt d h; simp [stabilityLoop_eq_zero] at h
  | succ fuel ih =>
    intro i last cnt d h
    cases hp : polls i with
    | vanished =>
      rw [stabilityLoop_eq_vanished canAccess ign fuel last cnt hp] at h
      simp at h
    | statError =>
      rw [stabilityLoop_eq_statError canAccess ign fuel last cnt hp] at h
      simp only [List.mem_cons] at h
      rcases h with rfl | h
      · omega
      · exact ih (i + 1) last cnt d h
    | size cur =>
      rw [stabilityLoop_eq_size canAccess ign fuel last cnt hp] at h
      split_ifs at h <;>
        first
          | exact absurd h (List.not_mem_nil d)
          | (simp only [List.mem_cons] at h
             rcases h with rfl | h
             · exact min_le_left 5 _
             · exact ih (i + 1) cur _ d h)

/-! ## C1 — minimum-size gate after stability -/

/-- C1: when `_check_file_stability` reaches its decision point — the
size has been unchanged for 3 consecutive reads and the 1-byte read
succeeded — with a stable size below `ignore_file_size`, the check
returns failure; the stability worker then increments the `unstable`
counter and removes the path from the Pending Registry, leaving the
stable queue (the only route to the hashing and processing stages, and
hence to any ledger entry or library link) untouched; and the threshold
plays no part in the check before the decision point: the decision size
and the poll delays are identical for every threshold value. -/
theorem minimum_size_gate_c1 (polls : ℕ → PollResult) (canAccess : ℕ → Bool)
    (ignoreSize : ℤ) (fuel : ℕ) (s : ℤ) (st : StabilityStageState)
    (fi : FileInfo)
    (hdec : (checkFileStability polls canAccess ignoreSize fuel).finalSize =
      some s)
    (hsmall : s < ignoreSize) :
    (checkFileStability polls canAccess ignoreSize fuel).ok = false ∧
    stabilityWorkerStep st fi
        (checkFileStability polls canAccess ignoreSize fuel).ok =
      { st with statsUnstable := st.statsUnstable + 1,
                pendingFiles := removeFromPending st.pendingFiles fi.filePath } ∧
    (∀ e ∈ removeFromPending st.pendingFiles fi.filePath, e.1 ≠ fi.filePath) ∧
    (∀ ign₂ : ℤ,
      (checkFileStability polls canAccess ign₂ fuel).finalSize =
        (checkFileStability polls canAccess ignoreSize fuel).finalSize ∧
      (checkFileStability polls canAccess ign₂ fuel).delays =
        (checkFileStability polls canAccess ignoreSize fuel).delays) := by
  have hiff := stabilityLoop_finalSize_ok polls canAccess ignoreSize fuel 0
    (-1) 0 s hdec
  have hok : (checkFileStability polls canAccess ignoreSize fuel).ok = false := by
    rcases Bool.eq_false_or_eq_true
      ((checkFileStability polls canAccess ignoreSize fuel).ok) with h | h
    · exact absurd (hiff.mp h) (by omega)
    · exact h
  refine ⟨hok, ?_, ?_, ?_⟩
  · rw [hok]
    simp [stabilityWorkerStep]
  · intro e he
    simp only [removeFromPending, List.mem_filter] at he
    simpa using he.2
  · intro ign₂
    exact ⟨(stabilityLoop_ignore_indep polls canAccess ign₂ ignoreSize fuel 0
        (-1) 0).1,
      (stabilityLoop_ignore_indep polls canAccess ign₂ ignoreSize fuel 0
        (-1) 0).2⟩

/-- Witness for C1: a file that polls at a constant 5 bytes with working
reads, against a 10-byte floor, reaches the decision point at size 5 and
the check fails. -/
theorem minimum_size_gate_c1_witness :
    (checkFileStability (fun _ => PollResult.size 5) (fun _ => true) 10 10).ok
      = false :=
  (minimum_size_gate_c1 (fun _ => PollResult.size 5) (fun _ => true) 10 10 5
    ⟨[("/in/a.mkv", 0)], [], 0, 0⟩ ⟨"/in/a.mkv", 5⟩ (by decide)
    (by decide)).1

/-! ## C8 — polling backoff -/

/-- C8 (amended): the inter-poll delays of `_check_file_stability` are
`min(5, 2 ** (stable_count // 2))` seconds (2 s after a read error), so
no delay ever exceeds 5 seconds; but the very first inter-poll delay
after a successful first size read is 1 second — the claimed initial
2 seconds never occurs as the first delay. -/
theorem stability_backoff_c8 (polls : ℕ → PollResult) (canAccess : ℕ → Bool)
    (ignoreSize : ℤ) (fuel : ℕ) :
    (∀ d ∈ (checkFileStability polls canAccess ignoreSize fuel).delays,
      d ≤ 5) ∧
    (∀ s₀ : ℤ, polls 0 = PollResult.size s₀ →
      ∀ d, (checkFileStability polls canAccess ignoreSize fuel).delays.head? =
        some d → d = 1) := by
  constructor
  · exact stabilityLoop_delays_le polls canAccess ignoreSize fuel 0 (-1) 0
  · intro s₀ hp d hd
    cases fuel with
    | zero => simp [checkFileStability, stabilityLoop_eq_zero] at hd
    | succ fuel =>
      rw [checkFileStability,
        stabilityLoop_eq_size canAccess ignoreSize fuel (-1) 0 hp] at hd
      split_ifs at hd <;>
        first
          | exact Option.noConfusion hd
          | (simp only [List.head?_cons, Option.some.injEq] at hd
             rw [(by decide : stabilityWait (0 + 1) = 1)] at hd
             omega)
          | (simp only [List.head?_cons, Option.some.injEq] at hd
             rw [(by decide : stabilityWait 0 = 1)] at hd
             omega)

/-- Witness for C8 (amended): on the constant-size run the delay 2
(which occurs in the delay list) is within the 5-second cap, and the
first delay is 1 second. -/
theorem stability_backoff_c8_witness :
    (2 : ℕ) ≤ 5 ∧ (1 : ℕ) = 1 :=
  ⟨(stability_backoff_c8 (fun _ => PollResult.size 100) (fun _ => true) 10
      10).1 2 (by decide),
   (stability_backoff_c8 (fun _ => PollResult.size 100) (fun _ => true) 10
      10).2 100 rfl 1 (by decide)⟩

/-- Counterexample for C8 as stated: a file polling at a constant 100
bytes (floor 10) sleeps 1 s, 1 s, 2 s before the check returns — the
very first inter-poll delay is 1 second, not the claimed 2 seconds. -/
theorem stability_backoff_c8_counterexample :
    (checkFileStability (fun _ => PollResult.size 100) (fun _ => true) 10
        10).delays = [1, 1, 2] ∧
    (checkFileStability (fun _ => PollResult.size 100) (fun _ => true) 10
        10).delays.head? ≠ some 2 := by
  decide

/-! ## C2 — cache hits and the last-accessed-time touch -/

theorem sqlYearEq_none (o : Option ℤ) : sqlYearEq o none = false := by
  cases o <;> rfl

/-- C2 (amended): on every cache hit the returned record's `is_anime`
equals `16 ∈ genre_ids`; when the lookup carries a year, the matched row
is rewritten with its `last_accessed_time` set to the current clock
reading; but when the lookup carries no year — as in every series query —
the UPDATE's `query_year = NULL` predicate matches no row and the table
is returned unchanged, so the hit is not touched.  The read and the
touch are two separate statements, not one atomic operation. -/
theorem cache_touch_c2 (db : List CacheRow) (qt qx : String) (year : Option ℤ)
    (now : ℤ) (res : CacheResult) (db' : List CacheRow)
    (h : getCache db qt qx year now = (some res, db')) :
    (res.isAnime = true ↔ (16 : ℤ) ∈ res.genreIds) ∧
    (∀ y : ℤ, year = some y →
      ∃ row ∈ db, cacheSelectMatch row qt qx year = true ∧
        res.genreIds = row.genreIds ∧
        { row with lastAccessedTime := now } ∈ db') ∧
    (year = none → db' = db) := by
  unfold getCache at h
  cases hfind : db.find? (fun r => cacheSelectMatch r qt qx year) with
  | none => rw [hfind] at h; exact absurd h (by simp)
  | some row =>
    rw [hfind] at h
    simp only [Prod.mk.injEq, Option.some.injEq] at h
    obtain ⟨hres, hdb⟩ := h
    have hrow_mem : row ∈ db := List.mem_of_find?_eq_some hfind
    have hrow_match : cacheSelectMatch row qt qx year = true := by
      have := List.find?_some hfind
      simpa using this
    refine ⟨?_, ?_, ?_⟩
    · rw [← hres]
      exact decide_eq_true_iff
    · intro y hy
      subst hy
      refine ⟨row, hrow_mem, hrow_match, by rw [← hres], ?_⟩
      rw [← hdb]
      have hupd : cacheUpdateMatch row qt qx (some y) = true := by
        unfold cacheSelectMatch at hrow_match
        unfold cacheUpdateMatch
        simpa using hrow_match
      have := List.mem_map_of_mem (fun r =>
        if cacheUpdateMatch r qt qx (some y) then
          { r with lastAccessedTime := now } else r) hrow_mem
      simpa [hupd] using this
    · intro hy
      subst hy
      rw [← hdb]
      have hid : ∀ r ∈ db, (if cacheUpdateMatch r qt qx none then
          { r with lastAccessedTime := now } else r) = r := by
        intro r _
        rw [if_neg]
        unfold cacheUpdateMatch
        rw [sqlYearEq_none]
        simp
      exact (List.map_congr_left hid).trans (by simp)

/-- Witness for C2 (amended): a one-row table keyed by a year, looked up
with that year, returns a hit whose `is_anime` is `16 ∈ genre_ids`. -/
theorem cache_touch_c2_witness :
    ({ dataJson := "", tmdbId := 1, mediaType := "movie", title := "T",
       releaseYear := some 1999, genres := [], genreIds := [16, 35],
       isAnime := true } : CacheResult).isAnime = true ↔
      (16 : ℤ) ∈ ([16, 35] : List ℤ) :=
  (cache_touch_c2
    [{ queryType := "movie", queryText := "q", queryYear := some 5,
       tmdbId := 1, mediaType := "movie", title := "T",
       releaseYear := some 1999, genres := [], genreIds := [16, 35],
       dataJson := "", createdTime := 100, lastAccessedTime := 100 }]
    "movie" "q" (some 5) 200
    { dataJson := "", tmdbId := 1, mediaType := "movie", title := "T",
      releaseYear := some 1999, genres := [], genreIds := [16, 35],
      isAnime := true }
    [{ queryType := "movie", queryText := "q", queryYear := some 5,
       tmdbId := 1, mediaType := "movie", title := "T",
       releaseYear := some 1999, genres := [], genreIds := [16, 35],
       dataJson := "", createdTime := 100, lastAccessedTime := 200 }]
    (by decide)).1

/-- Counterexample for C2 as stated: a series-style lookup with no year
(`search_tv` always passes `year = None`) returns a hit, yet the table —
including the matched row's `last_accessed_time` of 100 — is returned
unchanged although the clock reads 200: the UPDATE bound `NULL` and
touched nothing. -/
theorem cache_touch_c2_counterexample :
    (searchTvCacheLookup
      [{ queryType := "tv", queryText := "q", queryYear := some 2020,
         tmdbId := 1, mediaType := "tv", title := "T",
         releaseYear := some 2020, genres := [], genreIds := [18],
         dataJson := "", createdTime := 100, lastAccessedTime := 100 }]
      "q" 200).1.isSome = true ∧
    (searchTvCacheLookup
      [{ queryType := "tv", queryText := "q", queryYear := some 2020,
         tmdbId := 1, mediaType := "tv", title := "T",
         releaseYear := some 2020, genres := [], genreIds := [18],
         dataJson := "", createdTime := 100, lastAccessedTime := 100 }]
      "q" 200).2 =
      [{ queryType := "tv", queryText := "q", queryYear := some 2020,
         tmdbId := 1, mediaType := "tv", title := "T",
         releaseYear := some 2020, genres := [], genreIds := [18],
         dataJson := "", createdTime := 100, lastAccessedTime := 100 }] ∧
    (100 : ℤ) ≠ 200 := by
  refine ⟨rfl, ?_, by decide⟩
  rfl

/-! ## C7 — identification response validation -/

/-- C7 (amended): every response the validator accepts has kind `movie`
or `tv`, a truthy (in particular non-empty) title, an integer year
whenever a movie response carries the `year` key, and, for `tv`
responses, season and episode values that are present integers.  No
lower bound on season or episode is enforced. -/
theorem identification_validation_c7 (data accepted : Json)
    (h : parseAiResponse data = some accepted) :
    accepted = data ∧
    (data.getIsStr "type" "movie" = true ∨ data.getIsStr "type" "tv" = true) ∧
    Json.truthy (data.get "title") = true ∧
    (data.getIsStr "type" "movie" = true → data.hasKey "year" = true →
      jsonOptIsInt (data.get "year") = true) ∧
    (data.getIsStr "type" "movie" = false →
      jsonOptIsInt (data.get "season") = true ∧
      jsonOptIsInt (data.get "episode") = true) := by
  unfold parseAiResponse at h
  by_cases c1 : (!(data.getIsStr "type" "movie" ||
      data.getIsStr "type" "tv")) = true
  · rw [if_pos c1] at h
    exact Option.noConfusion h
  · rw [if_neg c1] at h
    have hor : (data.getIsStr "type" "movie" ||
        data.getIsStr "type" "tv") = true := by
      rcases Bool.eq_false_or_eq_true (data.getIsStr "type" "movie" ||
        data.getIsStr "type" "tv") with hT | hF
      · exact hT
      · exact absurd (by rw [hF] : (!(data.getIsStr "type" "movie" ||
          data.getIsStr "type" "tv")) = !false) c1
    by_cases c2 : data.getIsStr "type" "movie" = true
    · rw [if_pos c2] at h
      by_cases c3 : (!Json.truthy (data.get "title")) = true
      · rw [if_pos c3] at h
        exact Option.noConfusion h
      · rw [if_neg c3] at h
        by_cases c4 : (data.hasKey "year" &&
            !jsonOptIsInt (data.get "year")) = true
        · rw [if_pos c4] at h
          exact Option.noConfusion h
        · rw [if_neg c4] at h
          simp only [Option.some.injEq] at h
          subst h
          have htitle : Json.truthy (data.get "title") = true := by
            rcases Bool.eq_false_or_eq_true (Json.truthy (data.get "title"))
              with hT | hF
            · exact hT
            · exact absurd (by rw [hF] : (!Json.truthy (data.get "title")) =
                !false) c3
          refine ⟨rfl, Or.inl c2, htitle, ?_, ?_⟩
          · intro _ hk
            rcases Bool.eq_false_or_eq_true (jsonOptIsInt (data.get "year"))
              with hT | hF
            · exact hT
            · exact absurd (by rw [hk, hF] : (data.hasKey "year" &&
                !jsonOptIsInt (data.get "year")) = (true && !false)) c4
          · intro hm
            rw [c2] at hm
            exact Bool.noConfusion hm
    · rw [if_neg c2] at h
      have c2f : data.getIsStr "type" "movie" = false := by
        rcases Bool.eq_false_or_eq_true (data.getIsStr "type" "movie")
          with hT | hF
        · exact absurd hT c2
        · exact hF
      have ctv : data.getIsStr "type" "tv" = true := by
        rw [c2f] at hor
        simpa using hor
      by_cases c5 : (!Json.truthy (data.get "title")) = true
      · rw [if_pos c5] at h
        exact Option.noConfusion h
      · rw [if_neg c5] at h
        by_cases c6 : (optIsNone (data.get "season") ||
            !jsonOptIsInt (data.get "season")) = true
        · rw [if_pos c6] at h
          exact Option.noConfusion h
        · rw [if_neg c6] at h
          by_cases c7 : (optIsNone (data.get "episode") ||
              !jsonOptIsInt (data.get "episode")) = true
          · rw [if_pos c7] at h
            exact Option.noConfusion h
          · rw [if_neg c7] at h
            simp only [Option.some.injEq] at h
            subst h
            have htitle : Json.truthy (data.get "title") = true := by
              rcases Bool.eq_false_or_eq_true (Json.truthy (data.get "title"))
                with hT | hF
              · exact hT
              · exact absurd (by rw [hF] : (!Json.truthy (data.get "title")) =
                  !false) c5
            have hseason : jsonOptIsInt (data.get "season") = true := by
              rcases Bool.eq_false_or_eq_true
                (jsonOptIsInt (data.get "season")) with hT | hF
              · exact hT
              · refine absurd ?_ c6
                rw [hF]
                simp
            have hepisode : jsonOptIsInt (data.get "episode") = true := by
              rcases Bool.eq_false_or_eq_true
                (jsonOptIsInt (data.get "episode")) with hT | hF
              · exact hT
              · refine absurd ?_ c7
                rw [hF]
                simp
            exact ⟨rfl, Or.inr ctv, htitle,
              fun hm _ => absurd (c2f ▸ hm) Bool.noConfusion,
              fun _ => ⟨hseason, hepisode⟩⟩

/-- Witness for C7 (amended): a well-formed movie response is accepted
and its title is truthy. -/
theorem identification_validation_c7_witness :
    Json.truthy ((Json.obj [("type", Json.str "movie"),
      ("title", Json.str "The Matrix"), ("year", Json.int 1999)]).get "title")
      = true :=
  (identification_validation_c7
    (Json.obj [("type", Json.str "movie"), ("title", Json.str "The Matrix"),
      ("year", Json.int 1999)])
    (Json.obj [("type", Json.str "movie"), ("title", Json.str "The Matrix"),
      ("year", Json.int 1999)]) rfl).2.2.1

/-- Counterexample for C7 as stated: a series response with season 0 and
episode 0 — violating the claimed invariants season ≥ 1 and episode ≥ 1 —
is accepted by the validator rather than rejected. -/
theorem identification_validation_c7_counterexample :
    (parseAiResponse (Json.obj [("type", Json.str "tv"),
        ("title", Json.str "X"), ("season", Json.int 0),
        ("episode", Json.int 0)])).isSome = true ∧
    (Json.obj [("type", Json.str "tv"), ("title", Json.str "X"),
        ("season", Json.int 0), ("episode", Json.int 0)]).getInt "season" =
      some 0 ∧
    ¬(1 ≤ (0 : ℤ)) := by
  refine ⟨rfl, rfl, by decide⟩

/-! ## C9 — queue boundedness -/

theorem queuePutN_zero_length (n : ℕ) : (queuePutN 0 n).length = n := by
  have haux : ∀ (l : List ℕ) (q : List ℕ),
      (l.foldl (fun q i => queuePut 0 q i) q).length = q.length + l.length := by
    intro l
    induction l with
    | nil => intro q; simp
    | cons x xs ih =>
      intro q
      rw [List.foldl_cons, ih]
      have hput : queuePut 0 q x = q ++ [x] := by simp [queuePut]
      rw [hput]
      simp only [List.length_append, List.length_cons, List.length_nil,
        List.length_singleton]
      omega
  unfold queuePutN
  rw [haux]
  simp

/-- Counterexample for C9 as stated: the raw queue is constructed with
`Queue()`, i.e. `maxsize = 0`, and no finite capacity bounds the number
of descriptors it holds — after `n` puts it holds `n` items, for every
`n`. -/
theorem bounded_queues_c9_counterexample :
    ¬∃ C : ℕ, ∀ n : ℕ, (queuePutN rawFileQueueMaxsize n).length ≤ C := by
  rintro ⟨C, hC⟩
  have := hC (C + 1)
  have h0 : rawFileQueueMaxsize = 0 := rfl
  rw [h0, queuePutN_zero_length] at this
  omega

/-- C9 (amended): all three pipeline queues are created by `Queue()` with
the default `maxsize = 0`, the `queue` module's encoding of an infinite
queue: every put appends unconditionally, so after `n` puts a queue
holds exactly `n` descriptors and no finite capacity constrains any of
the three queues. -/
theorem unbounded_queues_c9 :
    rawFileQueueMaxsize = 0 ∧ stableFileQueueMaxsize = 0 ∧
    md5QueueMaxsize = 0 ∧
    (∀ n : ℕ, (queuePutN rawFileQueueMaxsize n).length = n) ∧
    (∀ n : ℕ, (queuePutN stableFileQueueMaxsize n).length = n) ∧
    (∀ n : ℕ, (queuePutN md5QueueMaxsize n).length = n) ∧
    (∀ (q : List FileInfo) (x : FileInfo),
      queuePut rawFileQueueMaxsize q x = q ++ [x]) := by
  refine ⟨rfl, rfl, rfl, queuePutN_zero_length, queuePutN_zero_length,
    queuePutN_zero_length, ?_⟩
  intro q x
  simp [queuePut, rawFileQueueMaxsize, queueDefaultMaxsize]

end MediaOrganizer
